import Mathlib

/-!
Verification of the algo-trading backtesting repository.

Shallow embedding of the performance-analytics and backtesting code
(`src/analytics/performance_analyzer.py`, `src/backtesting/backtest_engine.py`,
`src/backtesting/base_strategy.py`, the strategy variants and `src/cli.py`)
as Lean definitions, together with theorems settling the specification's
claims about them.

Python floats are modelled as rationals; a pandas NaN is modelled as `none`
in an `Option` result where NaN can arise.  Real-valued quantities that are
genuinely irrational (square roots, fractional powers) are modelled in `ℝ`.
-/

/-- Embedding of `config.RISK_FREE_RATE = 0.065`. -/
def RISK_FREE_RATE : ℚ := 65 / 1000

/-- Embedding of `config.DAYS_PER_YEAR = 252`. -/
def DAYS_PER_YEAR : ℕ := 252

/-! ## Profit factor (performance_analyzer.calculate_profit_factor and
backtest_engine._extract_results) -/

/-- Result type of a profit-factor computation: a finite float or `float('inf')`. -/
inductive PFResult where
  | fin (q : ℚ)
  | posInf
deriving DecidableEq, Repr

/-- Embedding of `gross_profit = sum(pnl for trades with pnl > 0)` in
`PerformanceAnalyzer.calculate_profit_factor`; a trade is represented by its pnl. -/
def grossProfit (pnls : List ℚ) : ℚ := (pnls.filter (fun x => 0 < x)).sum

/-- Embedding of `gross_loss = abs(sum(pnl for trades with pnl < 0))` in
`PerformanceAnalyzer.calculate_profit_factor`. -/
def grossLoss (pnls : List ℚ) : ℚ := |(pnls.filter (fun x => x < 0)).sum|

/-- Embedding of `PerformanceAnalyzer.calculate_profit_factor` (performance_analyzer.py
lines 172-183).  Trades are represented by their pnl values. -/
def calculate_profit_factor (pnls : List ℚ) : PFResult :=
  if pnls.length = 0 then .fin 0
  else if grossLoss pnls = 0 then
    (if grossProfit pnls = 0 then .fin 0 else .posInf)
  else .fin (grossProfit pnls / grossLoss pnls)

/-- Embedding of the profit-factor block of `BacktestEngine._extract_results`
(backtest_engine.py lines 149-157): `profit_factor` starts at `0.0` and is only
reassigned when both the `won` and `lost` sections are present in the trade
analysis; `won_sum` and `lost_sum` are the section totals (`lost_sum` through `abs`). -/
def engine_profit_factor (hasWon hasLost : Bool) (wonTotal lostTotal : ℚ) : PFResult :=
  if hasWon && hasLost then
    let lostSum := |lostTotal|
    if 0 < lostSum then .fin (wonTotal / lostSum)
    else if 0 < wonTotal then .posInf
    else .fin 0
  else .fin 0

/-! ## Backtest-run configuration validation (BacktestEngine.run) -/

/-- Embedding of `required_cols = ["Open", "High", "Low", "Close", "Volume"]` in
`BacktestEngine._create_data_feed`. -/
def requiredCols : List String := ["Open", "High", "Low", "Close", "Volume"]

/-- Configuration visible to `BacktestEngine.run`: the data columns, the engine's
capital and commission, and (for the claim) an indicator window and the bar count. -/
structure BacktestConfig where
  columns : List String
  initial_capital : ℚ
  commission : ℚ
  indicator_window : ℕ
  num_bars : ℕ

/-- Embedding of `BacktestEngine._create_data_feed` (backtest_engine.py lines 88-102):
first the column check raises `ValueError` when a required OHLCV column is missing;
then constructing `bt.feeds.PandasData(..., fromdate=data.index[0],
todate=data.index[-1])` raises `IndexError` when the frame has zero rows. -/
def create_data_feed (columns : List String) (numRows : ℕ) : Except String Unit :=
  if requiredCols.all (fun c => columns.contains c) then
    if numRows = 0 then .error "IndexError: index 0 is out of bounds"
    else .ok ()
  else .error "DataFrame must contain required columns"

/-- Embedding of the pre-simulation part of `BacktestEngine.run` (backtest_engine.py
lines 36-86): `setcash` and `setcommission` accept any values unchecked, `addstrategy`
performs no window/bar-count check, and the only things that raise before
`cerebro.run()` are `_create_data_feed`'s column check and its `data.index[0]` access
on an empty frame.  Returns `ok true` when the simulation executes. -/
def run_validation (cfg : BacktestConfig) : Except String Bool :=
  match create_data_feed cfg.columns cfg.num_bars with
  | .error e => .error e
  | .ok _ => .ok true

/-! ## Returns-based metrics (performance_analyzer) -/

/-- Embedding of pandas `Series.pct_change().dropna()` on the returns series:
`r_t / r_{t-1} - 1` for consecutive pairs, the leading NaN dropped.  Division is
exact rational division; every use in the theorems below keeps denominators nonzero
(pandas would produce inf/NaN on a zero denominator). -/
def pctChange (l : List ℚ) : List ℚ :=
  List.zipWith (fun prev cur => cur / prev - 1) l l.tail

/-- Mean of a list of rationals (pandas `Series.mean()` on a nonempty series). -/
def listMean (l : List ℚ) : ℚ := l.sum / l.length

/-- Sample variance with ddof = 1, the pandas `Series.std()` default, squared.
Only consulted for series of at least two elements. -/
def sampleVar (l : List ℚ) : ℚ :=
  ((l.map (fun x => (x - listMean l) ^ 2)).sum) / ((l.length : ℚ) - 1)

/-- Embedding of pandas `Series.std()` (ddof = 1): NaN — modelled as `none` — when
the series has fewer than two elements, else the square root of the sample variance. -/
noncomputable def sampleStd (l : List ℚ) : Option ℝ :=
  if l.length < 2 then none else some (Real.sqrt (sampleVar l))

/-- Embedding of `PerformanceAnalyzer.calculate_total_return` (performance_analyzer.py
lines 52-56): `(returns.iloc[-1] - 1) * 100`, 0 on an empty series. -/
def calculate_total_return (returns : List ℚ) : ℚ :=
  if returns.length = 0 then 0 else (returns.getLast! - 1) * 100

/-- Embedding of `PerformanceAnalyzer.calculate_annual_return` (performance_analyzer.py
lines 58-70).  Note the code sets `n_years = len(returns) / DAYS_PER_YEAR` — the full
point count N, not N−1. -/
noncomputable def calculate_annual_return (returns : List ℚ) : ℝ :=
  if returns.length = 0 then 0
  else if (returns.length : ℝ) / (DAYS_PER_YEAR : ℝ) ≤ 0 then 0
  else
    ((1 + (((returns.getLast! : ℚ) : ℝ) - 1)) ^
      ((1 : ℝ) / ((returns.length : ℝ) / (DAYS_PER_YEAR : ℝ))) - 1) * 100

/-- Modelled from the spec (§4.5): annual_return with `n_years = (N−1)/trading_days_per_year;
if n_years ≤ 0 → 0; else ((1+total_return/100)^(1/n_years) − 1) × 100`, stated for
comparison against `calculate_annual_return`. -/
noncomputable def spec_annual_return (returns : List ℚ) : ℝ :=
  if ((returns.length : ℝ) - 1) / (DAYS_PER_YEAR : ℝ) ≤ 0 then 0
  else
    ((1 + ((calculate_total_return returns : ℚ) : ℝ) / 100) ^
      ((1 : ℝ) / (((returns.length : ℝ) - 1) / (DAYS_PER_YEAR : ℝ))) - 1) * 100

/-- Embedding of `PerformanceAnalyzer.calculate_volatility` (performance_analyzer.py
lines 195-205): `daily_returns.std() * sqrt(DAYS_PER_YEAR) * 100`, with the two
short-series guards of the code.  The result is `none` when the float result is NaN. -/
noncomputable def calculate_volatility (returns : List ℚ) : Option ℝ :=
  if returns.length < 2 then some 0
  else
    let daily := pctChange returns
    if daily.length = 0 then some 0
    else (sampleStd daily).map (fun sd => sd * Real.sqrt (DAYS_PER_YEAR : ℝ) * 100)

/-- Embedding of `PerformanceAnalyzer.calculate_sortino_ratio` (performance_analyzer.py
lines 90-112).  The python guard is `len(downside) == 0 or downside.std() == 0`; the
float comparison `NaN == 0` is False (std of fewer than two samples is NaN), and for at
least two samples the std is zero exactly when the sample variance is zero, so the
guard is the decidable disjunction below.  `none` models a NaN result. -/
noncomputable def calculate_sortino_ratio (returns : List ℚ) : Option ℝ :=
  if returns.length < 2 then some 0
  else
    let daily := pctChange returns
    if daily.length = 0 then some 0
    else
      let downside := daily.filter (fun x => x < 0)
      if downside.length = 0 ∨ (2 ≤ downside.length ∧ sampleVar downside = 0) then some 0
      else
        let excess : ℚ := listMean daily - RISK_FREE_RATE / (DAYS_PER_YEAR : ℚ)
        (sampleStd downside).map
          (fun sd => ((excess : ℝ) / sd) * Real.sqrt (DAYS_PER_YEAR : ℝ))

/-! ## Theorems for C1 -/

theorem grossProfit_nonneg (pnls : List ℚ) : 0 ≤ grossProfit pnls := by
  refine List.sum_nonneg ?_
  intro x hx
  have := List.of_mem_filter hx
  simpa using le_of_lt (by simpa using this)

theorem grossProfit_nil : grossProfit ([] : List ℚ) = 0 := rfl

/-- C1, counterexample: a single losing trade (pnl = −1) gives profit_factor = 0
although gross_loss = 1 ≠ 0, refuting "profit_factor = 0 iff gross_profit = 0 and
gross_loss = 0". -/
theorem C1_counterexample :
    calculate_profit_factor [(-1 : ℚ)] = PFResult.fin 0 ∧
      grossLoss [(-1 : ℚ)] ≠ 0 ∧ grossProfit [(-1 : ℚ)] = 0 := by
  have hgp : grossProfit [(-1 : ℚ)] = 0 := by norm_num [grossProfit, List.filter]
  have hgl : grossLoss [(-1 : ℚ)] = 1 := by norm_num [grossLoss, List.filter]
  refine ⟨?_, by rw [hgl]; norm_num, hgp⟩
  unfold calculate_profit_factor
  rw [hgl, hgp]
  norm_num

/-- C1, amended: in both places, profit_factor = +infinity iff gross_loss = 0 and
gross_profit > 0; but profit_factor = 0 iff gross_profit = 0 alone (gross_loss may be
nonzero).  For the engine variant this holds when the won/lost sections are present
and the won total is nonnegative (it is a count in backtrader). -/
theorem C1_profit_factor_amended :
    (∀ pnls : List ℚ,
      (calculate_profit_factor pnls = PFResult.posInf ↔
        grossLoss pnls = 0 ∧ 0 < grossProfit pnls) ∧
      (calculate_profit_factor pnls = PFResult.fin 0 ↔ grossProfit pnls = 0)) ∧
    (∀ wonTotal lostTotal : ℚ, 0 ≤ wonTotal →
      (engine_profit_factor true true wonTotal lostTotal = PFResult.posInf ↔
        |lostTotal| = 0 ∧ 0 < wonTotal) ∧
      (engine_profit_factor true true wonTotal lostTotal = PFResult.fin 0 ↔
        wonTotal = 0)) := by
  constructor
  · intro pnls
    unfold calculate_profit_factor
    by_cases hlen : pnls.length = 0
    · have hnil : pnls = [] := List.eq_nil_of_length_eq_zero hlen
      subst hnil
      simp [grossLoss, grossProfit]
    · by_cases hgl : grossLoss pnls = 0
      · by_cases hgp : grossProfit pnls = 0
        · simp [hlen, hgl, hgp]
        · have : 0 < grossProfit pnls := lt_of_le_of_ne (grossProfit_nonneg pnls) (Ne.symm hgp)
          simp [hlen, hgl, hgp, this]
      · have hglpos : 0 < grossLoss pnls :=
          lt_of_le_of_ne (abs_nonneg _) (Ne.symm hgl)
        simp only [hlen, hgl, if_false, if_neg hgl]
        constructor
        · simp
        · constructor
          · intro h
            have := PFResult.fin.inj h
            have := div_eq_zero_iff.mp this
            rcases this with h1 | h2
            · exact h1
            · exact absurd h2 hgl
          · intro h
            simp [h]
  · intro wonTotal lostTotal hwon
    unfold engine_profit_factor
    by_cases hl : 0 < |lostTotal|
    · have hlne : |lostTotal| ≠ 0 := ne_of_gt hl
      simp only [Bool.and_self, if_pos hl, if_true]
      constructor
      · constructor
        · intro h; exact absurd h (by simp)
        · rintro ⟨h0, _⟩; exact absurd h0 hlne
      · constructor
        · intro h
          have := PFResult.fin.inj h
          rcases div_eq_zero_iff.mp this with h1 | h2
          · exact h1
          · exact absurd h2 hlne
        · intro h; simp [h]
    · have hl0 : |lostTotal| = 0 := le_antisymm (not_lt.mp hl) (abs_nonneg _)
      by_cases hw : 0 < wonTotal
      · simp [hl, hw, hl0]
        intro h; exact absurd h (ne_of_gt hw)
      · have hw0 : wonTotal = 0 := le_antisymm (not_lt.mp hw) hwon
        simp [hl, hw, hl0, hw0]

/-- C1 witness: the amended theorem applied at a winning-only list and at concrete
engine totals. -/
theorem C1_witness :
    (calculate_profit_factor [(2 : ℚ)] = PFResult.posInf ↔
      grossLoss [(2 : ℚ)] = 0 ∧ 0 < grossProfit [(2 : ℚ)]) ∧
    (engine_profit_factor true true 3 0 = PFResult.posInf ↔
      |(0 : ℚ)| = 0 ∧ (0 : ℚ) < 3) := by
  refine ⟨(C1_profit_factor_amended.1 [(2 : ℚ)]).1, ?_⟩
  exact (C1_profit_factor_amended.2 3 0 (by norm_num)).1

/-! ## Theorems for C2 -/

/-- C2, counterexample: a configuration with non-positive capital, negative commission
and an indicator window (50) larger than the (nonzero) bar count (10), but all OHLCV
columns present, is not rejected: the simulation runs.  This refutes the claim that
such configurations raise a fatal error before the simulation loop. -/
theorem C2_counterexample :
    run_validation
      { columns := requiredCols, initial_capital := 0, commission := -1,
        indicator_window := 50, num_bars := 10 } = Except.ok true := by
  rfl

/-- C2, amended: `run` raises before the simulation loop exactly when a required OHLCV
column is missing (ValueError) or the frame has zero rows (IndexError at
`data.index[0]` — the only instance of the "window ≥ bar count" class that is caught);
non-positive capital, negative commission, and indicator windows ≥ a positive bar
count are not validated, and the outcome is independent of capital, commission and
window. -/
theorem C2_run_validation_amended :
    (∀ cfg : BacktestConfig,
      (run_validation cfg = Except.ok true ↔
        (∀ c ∈ requiredCols, cfg.columns.contains c = true) ∧ cfg.num_bars ≠ 0)) ∧
    (∀ cols n x y w x' y' w',
      run_validation ⟨cols, x, y, w, n⟩ = run_validation ⟨cols, x', y', w', n⟩) := by
  constructor
  · intro cfg
    unfold run_validation create_data_feed
    by_cases h : requiredCols.all (fun c => cfg.columns.contains c)
    · rw [if_pos h]
      simp only [List.all_eq_true] at h
      by_cases hn : cfg.num_bars = 0
      · rw [if_pos hn]
        constructor
        · intro hc
          exact absurd hc (by simp)
        · rintro ⟨-, hneq⟩
          exact absurd hn hneq
      · rw [if_neg hn]
        exact ⟨fun _ => ⟨h, hn⟩, fun _ => rfl⟩
    · rw [if_neg h]
      simp only [List.all_eq_true] at h
      constructor
      · intro hc
        exact absurd hc (by simp)
      · rintro ⟨hall, -⟩
        exact absurd hall h
  · intro cols n x y w x' y' w'
    rfl

/-! ## Theorems for C3 -/

/-- C3: the arithmetic edge cases are not all resolved to the documented sentinels —
NaN leaks.  The volatility of the two-point series [1, 2] is NaN (pandas std with
ddof = 1 of the single daily return is NaN, multiplied through), and the sortino
ratio of [1, 2, 1, 2] — whose daily returns [1, −1/2, 1] contain exactly one negative
value — is NaN rather than the claimed 0, because the `std == 0` guard is False for a
NaN std. -/
theorem C3_nan_leak :
    calculate_volatility [1, 2] = none ∧ calculate_sortino_ratio [1, 2, 1, 2] = none := by
  constructor
  · rfl
  · have hdaily : pctChange [1, 2, 1, 2] = [1, -(1/2 : ℚ), 1] := by
      norm_num [pctChange, List.zipWith]
    have hfilter : ([1, -(1/2 : ℚ), 1].filter (fun x => x < 0)) = [-(1/2 : ℚ)] := by
      norm_num [List.filter_cons]
    unfold calculate_sortino_ratio
    rw [hdaily]
    simp only [hfilter]
    norm_num [sampleStd]

/-! ## Theorems for C4 -/

/-- C4, counterexample: on the one-point series [2] the spec formula (with
n_years = (N−1)/252 = 0 ≤ 0) yields 0, but the code (n_years = N/252 = 1/252)
yields (2^252 − 1) · 100 ≠ 0. -/
theorem C4_counterexample : calculate_annual_return [2] ≠ spec_annual_return [2] := by
  have hspec : spec_annual_return [2] = 0 := by
    unfold spec_annual_return
    norm_num
  rw [hspec]
  have hcode : calculate_annual_return [2] =
      ((1 + (((([(2 : ℚ)]).getLast! : ℚ) : ℝ) - 1)) ^
        ((1 : ℝ) / ((([(2 : ℚ)].length : ℕ) : ℝ) / ((DAYS_PER_YEAR : ℕ) : ℝ))) - 1) * 100 := by
    unfold calculate_annual_return
    rw [if_neg (by norm_num), if_neg (by norm_num [DAYS_PER_YEAR])]
  have hlast : (([(2 : ℚ)]).getLast! : ℚ) = 2 := rfl
  rw [hcode, hlast]
  have hexp : ((1 : ℝ) / ((([(2 : ℚ)].length : ℕ) : ℝ) / ((DAYS_PER_YEAR : ℕ) : ℝ))) =
      ((252 : ℕ) : ℝ) := by
    norm_num [DAYS_PER_YEAR]
  rw [hexp]
  have hb : (1 + (((2 : ℚ) : ℝ) - 1)) = (2 : ℝ) := by norm_num
  rw [hb, Real.rpow_natCast]
  have h2 : (1 : ℝ) < 2 ^ (252 : ℕ) := one_lt_pow₀ (by norm_num) (by norm_num)
  have : (0 : ℝ) < (2 ^ (252 : ℕ) - 1) * 100 := by nlinarith
  exact ne_of_gt this

/-- C4, amended: for every nonempty returns series the code computes
annual_return = ((1 + total_return/100)^(1/n_years) − 1) × 100 with
n_years = N / trading_days_per_year (the full point count N, not N−1), and the
n_years ≤ 0 fallback never fires. -/
theorem C4_annual_return_amended (returns : List ℚ) (h : 0 < returns.length) :
    ¬ ((returns.length : ℝ) / (DAYS_PER_YEAR : ℝ) ≤ 0) ∧
    calculate_annual_return returns =
      ((1 + ((calculate_total_return returns : ℚ) : ℝ) / 100) ^
        ((1 : ℝ) / ((returns.length : ℝ) / (DAYS_PER_YEAR : ℝ))) - 1) * 100 := by
  have hne : returns.length ≠ 0 := Nat.pos_iff_ne_zero.mp h
  have hpos : (0 : ℝ) < (returns.length : ℝ) / (DAYS_PER_YEAR : ℝ) := by
    apply div_pos
    · exact_mod_cast h
    · norm_num [DAYS_PER_YEAR]
  refine ⟨not_le.mpr hpos, ?_⟩
  unfold calculate_annual_return
  rw [if_neg hne, if_neg (not_le.mpr hpos)]
  have htr : ((calculate_total_return returns : ℚ) : ℝ) / 100 =
      ((returns.getLast! : ℚ) : ℝ) - 1 := by
    unfold calculate_total_return
    rw [if_neg hne]
    push_cast
    ring
  rw [htr]

/-- C4 witness: the amended theorem applied at the concrete series [2]. -/
theorem C4_witness :
    0 < [(2 : ℚ)].length ∧
    (¬ (([(2 : ℚ)].length : ℝ) / (DAYS_PER_YEAR : ℝ) ≤ 0) ∧
      calculate_annual_return [(2 : ℚ)] =
        ((1 + ((calculate_total_return [(2 : ℚ)] : ℚ) : ℝ) / 100) ^
          ((1 : ℝ) / (([(2 : ℚ)].length : ℝ) / (DAYS_PER_YEAR : ℝ))) - 1) * 100) :=
  ⟨by decide, C4_annual_return_amended [(2 : ℚ)] (by decide)⟩

/-! ## Max drawdown (performance_analyzer.calculate_max_drawdown) -/

/-- Embedding of pandas `Series.cumprod()`: running products with accumulator `acc`. -/
def cumprodFrom (acc : ℚ) : List ℚ → List ℚ
  | [] => []
  | x :: xs => (acc * x) :: cumprodFrom (acc * x) xs

/-- Embedding of `returns.cumprod()`. -/
def cumprod (l : List ℚ) : List ℚ := cumprodFrom 1 l

/-- Embedding of pandas `Series.expanding().max()` after the first element, with the
maximum so far in `m`. -/
def runMaxFrom (m : ℚ) : List ℚ → List ℚ
  | [] => []
  | x :: xs => (max m x) :: runMaxFrom (max m x) xs

/-- Embedding of `cumulative.expanding().max()`. -/
def runningMax (l : List ℚ) : List ℚ :=
  match l with
  | [] => []
  | x :: xs => x :: runMaxFrom x xs

/-- Embedding of `drawdown = (cumulative - running_max) / running_max` as a series.
Division is exact rational division; pandas would return NaN/inf where the running
max is zero, which every use below excludes. -/
def drawdowns (l : List ℚ) : List ℚ :=
  List.zipWith (fun c m => (c - m) / m) l (runningMax l)

/-- Embedding of `PerformanceAnalyzer.calculate_max_drawdown` (performance_analyzer.py
lines 128-140): `drawdown.min() * 100`, 0 for fewer than two points. -/
def calculate_max_drawdown (returns : List ℚ) : ℚ :=
  if returns.length < 2 then 0
  else
    match drawdowns (cumprod returns) with
    | [] => 0
    | d :: ds => (ds.foldl min d) * 100

theorem cumprodFrom_pos {acc : ℚ} {l : List ℚ} (ha : 0 < acc) (hl : ∀ x ∈ l, 0 < x) :
    ∀ y ∈ cumprodFrom acc l, 0 < y := by
  induction l generalizing acc with
  | nil => intro y hy; simp [cumprodFrom] at hy
  | cons x xs ih =>
    intro y hy
    have hx : 0 < x := hl x (by simp)
    have hax : 0 < acc * x := mul_pos ha hx
    simp only [cumprodFrom, List.mem_cons] at hy
    rcases hy with rfl | hy
    · exact hax
    · exact ih hax (fun z hz => hl z (by simp [hz])) y hy

theorem ddFrom_nonpos {m : ℚ} {l : List ℚ} (hm : 0 < m) (hl : ∀ x ∈ l, 0 < x) :
    ∀ d ∈ List.zipWith (fun c mm => (c - mm) / mm) l (runMaxFrom m l), d ≤ 0 := by
  induction l generalizing m with
  | nil => intro d hd; simp [runMaxFrom] at hd
  | cons x xs ih =>
    intro d hd
    simp only [runMaxFrom, List.zipWith_cons_cons, List.mem_cons] at hd
    have hmx : 0 < max m x := lt_of_lt_of_le hm (le_max_left m x)
    rcases hd with rfl | hd
    · exact div_nonpos_of_nonpos_of_nonneg (sub_nonpos.2 (le_max_right m x)) (le_of_lt hmx)
    · exact ih hmx (fun z hz => hl z (by simp [hz])) d hd

theorem ddFrom_allzero_iff {m : ℚ} {l : List ℚ} (hm : 0 < m) (hl : ∀ x ∈ l, 0 < x) :
    (∀ d ∈ List.zipWith (fun c mm => (c - mm) / mm) l (runMaxFrom m l), d = 0) ↔
      List.Chain' (· ≤ ·) (m :: l) := by
  induction l generalizing m with
  | nil => simp [runMaxFrom]
  | cons x xs ih =>
    have hx : 0 < x := hl x (by simp)
    simp only [runMaxFrom, List.zipWith_cons_cons, List.forall_mem_cons, List.chain'_cons]
    by_cases hmx : m ≤ x
    · rw [max_eq_right hmx]
      have hih := ih hx (fun z hz => hl z (by simp [hz]))
      simp only [sub_self, zero_div, eq_self_iff_true, true_and]
      rw [hih]
      exact ⟨fun h => ⟨hmx, h⟩, fun h => h.2⟩
    · have hxm : x < m := not_le.1 hmx
      rw [max_eq_left (le_of_lt hxm)]
      have hhead : (x - m) / m < 0 :=
        div_neg_of_neg_of_pos (sub_neg.2 hxm) hm
      constructor
      · rintro ⟨h0, -⟩
        exact absurd h0 (ne_of_lt hhead)
      · rintro ⟨hle, -⟩
        exact absurd hle hmx

theorem foldl_min_le_init (a : ℚ) (l : List ℚ) : l.foldl min a ≤ a := by
  induction l generalizing a with
  | nil => simp
  | cons x xs ih =>
    calc (x :: xs).foldl min a = xs.foldl min (min a x) := rfl
    _ ≤ min a x := ih (min a x)
    _ ≤ a := min_le_left a x

theorem foldl_min_le_mem (a : ℚ) (l : List ℚ) : ∀ y ∈ l, l.foldl min a ≤ y := by
  induction l generalizing a with
  | nil => simp
  | cons x xs ih =>
    intro y hy
    rcases List.mem_cons.1 hy with rfl | hy
    · calc (y :: xs).foldl min a = xs.foldl min (min a y) := rfl
      _ ≤ min a y := foldl_min_le_init _ _
      _ ≤ y := min_le_right a y
    · exact ih (min a x) y hy

theorem le_foldl_min {b a : ℚ} {l : List ℚ} (hba : b ≤ a) (hl : ∀ y ∈ l, b ≤ y) :
    b ≤ l.foldl min a := by
  induction l generalizing a with
  | nil => simpa using hba
  | cons x xs ih =>
    have hx : b ≤ x := hl x (by simp)
    exact ih (le_min hba hx) (fun z hz => hl z (by simp [hz]))

theorem calc_mdd_cons (d : ℚ) (ds : List ℚ) (returns : List ℚ)
    (hlen : ¬ returns.length < 2) (hdd : drawdowns (cumprod returns) = d :: ds) :
    calculate_max_drawdown returns = (ds.foldl min d) * 100 := by
  unfold calculate_max_drawdown
  rw [if_neg hlen, hdd]

/-- C5, counterexample: on the series [−1, 2] the cumulative curve is [−1, −2],
strictly decreasing, yet calculate_max_drawdown returns 0 (the negative running max
flips the sign of the drawdown quotient).  This refutes "max_drawdown = 0 iff the
equity curve is non-decreasing" on arbitrary series. -/
theorem C5_counterexample :
    calculate_max_drawdown [(-1 : ℚ), 2] = 0 ∧
      ¬ List.Chain' (· ≤ ·) (cumprod [(-1 : ℚ), 2]) := by
  have hcp : cumprod [(-1 : ℚ), 2] = [1 * -1, (1 * -1) * 2] := rfl
  constructor
  · have hdd : drawdowns (cumprod [(-1 : ℚ), 2]) =
        [((1 * -1) - (1 * -1)) / (1 * -1),
         (((1 * -1) * 2) - max (1 * -1) ((1 * -1) * 2)) / max (1 * -1) ((1 * -1) * 2)] := rfl
    rw [calc_mdd_cons _ _ _ (by simp) hdd]
    have hmax : max ((1 : ℚ) * -1) ((1 * -1) * 2) = -1 := by norm_num
    have hd0 : ((1 * -1 : ℚ) - (1 * -1)) / (1 * -1) = 0 := by norm_num
    have hd1 : (((1 * -1 : ℚ) * 2) - max (1 * -1) ((1 * -1) * 2)) /
        max (1 * -1) ((1 * -1) * 2) = 1 := by
      rw [hmax]; norm_num
    rw [hd0, hd1]
    norm_num
  · rw [hcp]
    simp only [List.chain'_cons, List.chain'_singleton, and_true]
    norm_num

/-- C5, amended: for every returns series with all entries positive (equity return
factors), max_drawdown ≤ 0 and it equals 0 iff the cumulative equity curve — the
cumulative product of the series — is non-decreasing at every step.  Positivity is
needed: with negative entries the running max can be negative and the quotient flips
sign, as the counterexample shows. -/
theorem C5_max_drawdown_amended (returns : List ℚ) (hpos : ∀ x ∈ returns, 0 < x) :
    calculate_max_drawdown returns ≤ 0 ∧
      (calculate_max_drawdown returns = 0 ↔ List.Chain' (· ≤ ·) (cumprod returns)) := by
  cases returns with
  | nil => simp [calculate_max_drawdown, cumprod, cumprodFrom]
  | cons r rest =>
    cases rest with
    | nil => simp [calculate_max_drawdown, cumprod, cumprodFrom]
    | cons r2 rest2 =>
      have hlen : ¬ ((r :: r2 :: rest2).length < 2) := by simp
      have hcp : cumprod (r :: r2 :: rest2) =
          (1 * r) :: cumprodFrom (1 * r) (r2 :: rest2) := rfl
      have hdd : drawdowns (cumprod (r :: r2 :: rest2)) =
          ((1 * r - 1 * r) / (1 * r)) ::
            List.zipWith (fun c mm => (c - mm) / mm)
              (cumprodFrom (1 * r) (r2 :: rest2))
              (runMaxFrom (1 * r) (cumprodFrom (1 * r) (r2 :: rest2))) := rfl
      have hc0 : 0 < 1 * r := by rw [one_mul]; exact hpos r (by simp)
      have hctpos : ∀ x ∈ cumprodFrom (1 * r) (r2 :: rest2), 0 < x :=
        cumprodFrom_pos hc0 (fun z hz => hpos z (by simp [hz]))
      have hd0 : ((1 : ℚ) * r - 1 * r) / (1 * r) = 0 := by rw [sub_self, zero_div]
      rw [calc_mdd_cons _ _ _ hlen hdd, hd0]
      have hnonpos := ddFrom_nonpos hc0 hctpos
      have hallzero := ddFrom_allzero_iff hc0 hctpos
      have hfle : (List.zipWith (fun c mm => (c - mm) / mm)
          (cumprodFrom (1 * r) (r2 :: rest2))
          (runMaxFrom (1 * r) (cumprodFrom (1 * r) (r2 :: rest2)))).foldl min 0 ≤ 0 :=
        foldl_min_le_init 0 _
      constructor
      · nlinarith [hfle]
      · rw [mul_eq_zero, or_iff_left (by norm_num : ((100 : ℚ) ≠ 0)), hcp, ← hallzero]
        constructor
        · intro h0 y hy
          have h1 := foldl_min_le_mem 0 _ y hy
          rw [h0] at h1
          exact le_antisymm (hnonpos y hy) h1
        · intro hz
          exact le_antisymm hfle
            (le_foldl_min (le_refl 0) (fun y hy => (hz y hy).ge))

/-- C5 witness: the amended theorem applied at the all-positive series [1, 2]. -/
theorem C5_witness :
    (∀ x ∈ [(1 : ℚ), 2], 0 < x) ∧
    (calculate_max_drawdown [(1 : ℚ), 2] ≤ 0 ∧
      (calculate_max_drawdown [(1 : ℚ), 2] = 0 ↔
        List.Chain' (· ≤ ·) (cumprod [(1 : ℚ), 2]))) := by
  have h : ∀ x ∈ [(1 : ℚ), 2], 0 < x := by
    intro x hx
    rcases List.mem_cons.1 hx with rfl | hx
    · norm_num
    · rcases List.mem_singleton.1 hx with rfl
      norm_num
  exact ⟨h, C5_max_drawdown_amended [(1 : ℚ), 2] h⟩

/-! ## Strategy signal generation (strategies/*.py) -/

/-- Trading action emitted by a strategy's `next` on one bar. -/
inductive TradeAction where
  | buy
  | sell
deriving DecidableEq, Repr

/-- BUY condition of `RSIStrategy.next` (rsi_strategy.py line 35):
`rsi < lower and not position`. -/
def rsiBuyCond (rsi lower : ℚ) (hasPosition : Bool) : Prop :=
  rsi < lower ∧ hasPosition = false

/-- SELL condition of `RSIStrategy.next` (rsi_strategy.py line 40):
`rsi > upper and position`. -/
def rsiSellCond (rsi upper : ℚ) (hasPosition : Bool) : Prop :=
  upper < rsi ∧ hasPosition = true

/-- Embedding of `RSIStrategy.next` (rsi_strategy.py lines 32-42): an `if/elif`
chain, BUY branch first. -/
def rsi_next (rsi lower upper : ℚ) (hasPosition : Bool) : Option TradeAction :=
  if rsi < lower ∧ hasPosition = false then some .buy
  else if upper < rsi ∧ hasPosition = true then some .sell
  else none

/-- BUY condition of `BollingerBandsStrategy.next` (bb_strategy.py line 37):
`close <= bot and not position`. -/
def bbBuyCond (close bot : ℚ) (hasPosition : Bool) : Prop :=
  close ≤ bot ∧ hasPosition = false

/-- SELL condition of `BollingerBandsStrategy.next` (bb_strategy.py line 45):
`close >= top and position`. -/
def bbSellCond (close top : ℚ) (hasPosition : Bool) : Prop :=
  top ≤ close ∧ hasPosition = true

/-- Embedding of `BollingerBandsStrategy.next` (bb_strategy.py lines 34-50). -/
def bb_next (close bot top : ℚ) (hasPosition : Bool) : Option TradeAction :=
  if close ≤ bot ∧ hasPosition = false then some .buy
  else if top ≤ close ∧ hasPosition = true then some .sell
  else none

/-- BUY condition of `MomentumStrategy.next` (momentum_strategy.py lines 52-54):
`roc > threshold and price > sma and not position`. -/
def momBuyCond (roc threshold price sma : ℚ) (hasPosition : Bool) : Prop :=
  threshold < roc ∧ sma < price ∧ hasPosition = false

/-- SELL condition of `MomentumStrategy.next` (momentum_strategy.py lines 63-65):
`(roc < -threshold or price < sma) and position`. -/
def momSellCond (roc threshold price sma : ℚ) (hasPosition : Bool) : Prop :=
  (roc < -threshold ∨ price < sma) ∧ hasPosition = true

/-- Embedding of `MomentumStrategy.next` (momentum_strategy.py lines 45-73). -/
def momentum_next (roc threshold price sma : ℚ) (hasPosition : Bool) : Option TradeAction :=
  if threshold < roc ∧ sma < price ∧ hasPosition = false then some .buy
  else if (roc < -threshold ∨ price < sma) ∧ hasPosition = true then some .sell
  else none

/-- Embedding of `MAcrossoverStrategy.next` (ma_crossover.py lines 38-54): decided
by the sign of the crossover indicator value, BUY branch first. -/
def ma_next (crossover : ℚ) : Option TradeAction :=
  if 0 < crossover then some .buy
  else if crossover < 0 then some .sell
  else none

/-! ## Signal application (BaseStrategy.buy_signal / sell_signal) -/

/-- Side of an order submitted to the broker. -/
inductive OrderSide where
  | buyOrder
  | sellOrder
deriving DecidableEq, Repr

/-- Strategy/broker state visible to `buy_signal`/`sell_signal`: whether a position
is open, the strategy's pending-order reference, and the stream of orders submitted
to the broker. -/
structure StratState where
  position : Bool
  order : Option OrderSide
  placed : List OrderSide
deriving DecidableEq, Repr

/-- Embedding of `BaseStrategy.buy_signal` (base_strategy.py lines 88-91): a buy order
is submitted only when flat; otherwise the state is returned untouched.  The function
is total — no exception path exists. -/
def buy_signal (s : StratState) : StratState :=
  if s.position = false then
    { s with order := some .buyOrder, placed := s.placed ++ [.buyOrder] }
  else s

/-- Embedding of `BaseStrategy.sell_signal` (base_strategy.py lines 93-96): a sell
order is submitted only when a position is open; otherwise the state is untouched. -/
def sell_signal (s : StratState) : StratState :=
  if s.position = true then
    { s with order := some .sellOrder, placed := s.placed ++ [.sellOrder] }
  else s

/-! ## Order notification accounting (BaseStrategy.notify_order) -/

/-- Backtrader order statuses distinguished by `notify_order`. -/
inductive PyOrderStatus where
  | Submitted
  | Accepted
  | Completed
  | Canceled
  | Margin
  | Rejected
deriving DecidableEq, Repr

/-- An order notification: its status, side, executed price and commission. -/
structure PyOrder where
  status : PyOrderStatus
  isbuy : Bool
  price : ℚ
  comm : ℚ

/-- Accounting state maintained by `BaseStrategy` across order notifications. -/
structure StratAccounting where
  buy_price : Option ℚ
  buy_comm : Option ℚ
  trade_count : ℕ
  winning_trades : ℕ
  losing_trades : ℕ
  total_profit : ℚ
  order : Option OrderSide

/-- Embedding of `BaseStrategy.notify_order` (base_strategy.py lines 49-78).  On a
completed sell, `profit = order.executed.price - self.buy_price if self.buy_price
else 0`: the python truthiness test is false for `None` and for `0.0` alike.  The
`trade_count += 1` and `order = None` lines run for every completed order, buy or
sell. -/
def notify_order (s : StratAccounting) (o : PyOrder) : StratAccounting :=
  match o.status with
  | .Submitted => s
  | .Accepted => s
  | .Completed =>
    if o.isbuy then
      { s with buy_price := some o.price, buy_comm := some o.comm,
               trade_count := s.trade_count + 1, order := none }
    else
      let profit : ℚ :=
        match s.buy_price with
        | none => 0
        | some p => if p = 0 then 0 else o.price - p
      if 0 < profit then
        { s with winning_trades := s.winning_trades + 1,
                 total_profit := s.total_profit + profit,
                 trade_count := s.trade_count + 1, order := none }
      else
        { s with losing_trades := s.losing_trades + 1,
                 total_profit := s.total_profit + profit,
                 trade_count := s.trade_count + 1, order := none }
  | .Canceled => { s with order := none }
  | .Margin => { s with order := none }
  | .Rejected => { s with order := none }

/-! ## Theorems for C6 -/

/-- C6: for every strategy variant and every bar input, the BUY condition is decided
first: the strategy emits BUY exactly when its BUY condition holds, and emits SELL
exactly when the BUY condition fails and the SELL condition holds — so no bar can
produce both, even where the raw conditions overlap. -/
theorem C6_buy_evaluated_first :
    (∀ (rsi lower upper : ℚ) (pos : Bool),
      (rsi_next rsi lower upper pos = some TradeAction.buy ↔ rsiBuyCond rsi lower pos) ∧
      (rsi_next rsi lower upper pos = some TradeAction.sell ↔
        ¬ rsiBuyCond rsi lower pos ∧ rsiSellCond rsi upper pos)) ∧
    (∀ (close bot top : ℚ) (pos : Bool),
      (bb_next close bot top pos = some TradeAction.buy ↔ bbBuyCond close bot pos) ∧
      (bb_next close bot top pos = some TradeAction.sell ↔
        ¬ bbBuyCond close bot pos ∧ bbSellCond close top pos)) ∧
    (∀ (roc threshold price sma : ℚ) (pos : Bool),
      (momentum_next roc threshold price sma pos = some TradeAction.buy ↔
        momBuyCond roc threshold price sma pos) ∧
      (momentum_next roc threshold price sma pos = some TradeAction.sell ↔
        ¬ momBuyCond roc threshold price sma pos ∧ momSellCond roc threshold price sma pos)) ∧
    (∀ crossover : ℚ,
      (ma_next crossover = some TradeAction.buy ↔ 0 < crossover) ∧
      (ma_next crossover = some TradeAction.sell ↔ ¬ 0 < crossover ∧ crossover < 0)) := by
  refine ⟨?_, ?_, ?_, ?_⟩
  · intro rsi lower upper pos
    unfold rsi_next rsiBuyCond rsiSellCond
    split_ifs with h1 h2 <;> simp_all
  · intro close bot top pos
    unfold bb_next bbBuyCond bbSellCond
    split_ifs with h1 h2 <;> simp_all
  · intro roc threshold price sma pos
    unfold momentum_next momBuyCond momSellCond
    split_ifs with h1 h2 <;> simp_all
  · intro crossover
    unfold ma_next
    split_ifs with h1 h2 <;> simp_all

/-! ## Theorems for C7 -/

/-- C7: requesting a BUY while a position is open, or a SELL while flat, leaves the
strategy and broker state completely unchanged — no order is submitted — and since
`buy_signal`/`sell_signal` are total functions there is no error path. -/
theorem C7_invalid_signal_noop :
    ∀ s : StratState,
      (s.position = true → buy_signal s = s) ∧
      (s.position = false → sell_signal s = s) := by
  intro s
  constructor
  · intro h
    unfold buy_signal
    rw [h]
    simp
  · intro h
    unfold sell_signal
    rw [h]
    simp

/-- C7 witness: the no-op theorem applied at concrete positioned and flat states. -/
theorem C7_witness :
    buy_signal { position := true, order := none, placed := [] } =
      { position := true, order := none, placed := [] } ∧
    sell_signal { position := false, order := none, placed := [] } =
      { position := false, order := none, placed := [] } :=
  ⟨(C7_invalid_signal_noop _).1 rfl, (C7_invalid_signal_noop _).2 rfl⟩

/-! ## Theorems for C10 -/

/-- C10: every completed order — buy or sell — increments trade_count by 1, so a
closed round-trip grows it by 2; winning_trades + losing_trades grows only on the
sell fill, by exactly 1; and a sell executed at exactly the recorded buy price gives
profit 0, which is not strictly positive, so it counts as a losing trade. -/
theorem C10_notify_order_accounting :
    ∀ (s : StratAccounting) (price comm price2 comm2 p : ℚ),
      ((notify_order s ⟨.Completed, true, price, comm⟩).trade_count = s.trade_count + 1 ∧
        (notify_order s ⟨.Completed, true, price, comm⟩).winning_trades +
            (notify_order s ⟨.Completed, true, price, comm⟩).losing_trades =
          s.winning_trades + s.losing_trades) ∧
      ((notify_order s ⟨.Completed, false, price, comm⟩).trade_count = s.trade_count + 1 ∧
        (notify_order s ⟨.Completed, false, price, comm⟩).winning_trades +
            (notify_order s ⟨.Completed, false, price, comm⟩).losing_trades =
          s.winning_trades + s.losing_trades + 1) ∧
      (notify_order (notify_order s ⟨.Completed, true, price, comm⟩)
          ⟨.Completed, false, price2, comm2⟩).trade_count = s.trade_count + 2 ∧
      ((notify_order { s with buy_price := some p }
          ⟨.Completed, false, p, comm⟩).losing_trades = s.losing_trades + 1 ∧
        (notify_order { s with buy_price := some p }
          ⟨.Completed, false, p, comm⟩).winning_trades = s.winning_trades) := by
  intro s price comm price2 comm2 p
  refine ⟨⟨rfl, rfl⟩, ⟨?_, ?_⟩, ?_, ?_⟩
  · unfold notify_order
    cases hbp : s.buy_price
    · simp
    · simp
      split_ifs <;> rfl
  · unfold notify_order
    cases hbp : s.buy_price
    · simp
      omega
    · simp
      split_ifs <;> (simp; omega)
  · unfold notify_order
    simp
    split_ifs <;> rfl
  · have hprofit : (if p = 0 then (0 : ℚ) else p - p) = 0 := by
      split_ifs <;> simp
    unfold notify_order
    simp only [hprofit]
    norm_num

/-! ## CLI visualization equity curve (cli.py backtest, visualization.plot_drawdown) -/

/-- Embedding of the equity-curve construction in the CLI `backtest` command
(cli.py lines 160-165): a series of `len(dates)` copies of the single value
`capital * (1 + total_return/100)`. -/
def cli_equity_values (numDates : ℕ) (capital total_return : ℚ) : List ℚ :=
  List.replicate numDates (capital * (1 + total_return / 100))

/-- Embedding of the drawdown computation in `ResultsVisualizer.plot_drawdown`
(visualization.py lines 49-52): `(cumulative - running_max) / running_max * 100`
pointwise over the series; `none` models the non-finite float pandas produces
when the running max is zero. -/
def plot_drawdown_series (equity : List ℚ) : List (Option ℚ) :=
  List.zipWith
    (fun c m => if m = 0 then none else some ((c - m) / m * 100))
    equity (runningMax equity)

theorem runMaxFrom_replicate (v : ℚ) (k : ℕ) :
    runMaxFrom v (List.replicate k v) = List.replicate k v := by
  induction k with
  | zero => rfl
  | succ n ih =>
    simp only [List.replicate_succ, runMaxFrom, max_self]
    rw [ih]

theorem runningMax_replicate (v : ℚ) (n : ℕ) :
    runningMax (List.replicate n v) = List.replicate n v := by
  cases n with
  | zero => rfl
  | succ k =>
    simp only [List.replicate_succ, runningMax]
    rw [runMaxFrom_replicate]

theorem zipWith_self_replicate {α β : Type} (f : α → α → β) (v : α) (n : ℕ) :
    List.zipWith f (List.replicate n v) (List.replicate n v) =
      List.replicate n (f v v) := by
  induction n with
  | zero => rfl
  | succ k ih =>
    simp only [List.replicate_succ, List.zipWith_cons_cons]
    rw [ih]

/-- C9: the equity series the CLI builds for visualization has one point per bar but
all points carry the same value capital × (1 + total_return/100); consequently the
drawdown series `plot_drawdown` computes from it is identically 0 (whenever that
constant value is nonzero, division by the running max being defined), regardless of
the actual intra-run equity path. -/
theorem C9_cli_equity_constant (N : ℕ) (capital total_return : ℚ)
    (h : capital * (1 + total_return / 100) ≠ 0) :
    (cli_equity_values N capital total_return).length = N ∧
    (∀ x ∈ cli_equity_values N capital total_return,
      x = capital * (1 + total_return / 100)) ∧
    plot_drawdown_series (cli_equity_values N capital total_return) =
      List.replicate N (some 0) := by
  refine ⟨List.length_replicate _ _, fun x hx => List.eq_of_mem_replicate hx, ?_⟩
  unfold plot_drawdown_series cli_equity_values
  rw [runningMax_replicate, zipWith_self_replicate]
  rw [if_neg h, sub_self, zero_div, zero_mul]

/-- C9 witness: the theorem applied at 3 bars, capital 100000 and a 10% total
return. -/
theorem C9_witness :
    (100000 : ℚ) * (1 + 10 / 100) ≠ 0 ∧
    (cli_equity_values 3 100000 10).length = 3 ∧
    (∀ x ∈ cli_equity_values 3 100000 10, x = (100000 : ℚ) * (1 + 10 / 100)) ∧
    plot_drawdown_series (cli_equity_values 3 100000 10) =
      List.replicate 3 (some 0) := by
  have h : (100000 : ℚ) * (1 + 10 / 100) ≠ 0 := by norm_num
  exact ⟨h, C9_cli_equity_constant 3 100000 10 h⟩

/-! ## MA-Crossover strategy on a strictly increasing price series (ma_crossover.py
together with the backtrader SMA and CrossOver indicators) -/

/-- Modelled from the spec: `bt.indicators.SimpleMovingAverage` is library code, not
part of this repository; §4.1 defines SMA(n) at bar t as the mean of the last n
closes, i.e. of the window `t+1−n .. t`. -/
def sma (p : ℕ → ℚ) (n : ℕ) (t : ℕ) : ℚ :=
  (∑ i ∈ Finset.Ico (t + 1 - n) (t + 1), p i) / (n : ℚ)

/-- Modelled from the spec: `bt.indicators.CrossOver` is library code, not part of
this repository; §4.2 defines the upward cross as "prev fast ≤ prev slow AND current
fast > current slow", symmetrically downward; the indicator value is +1, −1 or 0. -/
def crossoverValue (p : ℕ → ℚ) (fast slow : ℕ) (t : ℕ) : ℚ :=
  if sma p fast (t - 1) ≤ sma p slow (t - 1) ∧ sma p slow t < sma p fast t then 1
  else if sma p slow (t - 1) ≤ sma p fast (t - 1) ∧ sma p fast t < sma p slow t then -1
  else 0

/-- Embedding of a full run of `MAcrossoverStrategy.next` over `numBars` bars:
`ma_next` is invoked once per bar after the indicator warm-up (backtrader first calls
`next` when every line is ready; the crossover needs the previous SMAs, so the first
evaluated bar is index `slow`). -/
def maSignals (p : ℕ → ℚ) (fast slow : ℕ) (numBars : ℕ) : List TradeAction :=
  (List.range numBars).filterMap
    (fun t => if slow ≤ t then ma_next (crossoverValue p fast slow t) else none)

theorem sma_fast_gt_slow (p : ℕ → ℚ) (hp : StrictMono p) (f s t : ℕ)
    (hf : 0 < f) (hfs : f < s) (ht : s ≤ t + 1) :
    sma p s t < sma p f t := by
  have hf1 : f ≤ t + 1 := le_trans hfs.le ht
  have hbsbf : t + 1 - s ≤ t + 1 - f := by omega
  have hbft : t + 1 - f ≤ t + 1 := by omega
  have hsplit : ∑ i ∈ Finset.Ico (t + 1 - s) (t + 1), p i =
      (∑ i ∈ Finset.Ico (t + 1 - s) (t + 1 - f), p i) +
        ∑ i ∈ Finset.Ico (t + 1 - f) (t + 1), p i :=
    (Finset.sum_Ico_consecutive _ hbsbf hbft).symm
  have hcardf : (Finset.Ico (t + 1 - f) (t + 1)).card = f := by
    rw [Nat.card_Ico]; omega
  have hcardb : (Finset.Ico (t + 1 - s) (t + 1 - f)).card = s - f := by
    rw [Nat.card_Ico]; omega
  have hb1 : (f : ℚ) * p (t + 1 - f) ≤ ∑ i ∈ Finset.Ico (t + 1 - f) (t + 1), p i := by
    have h := Finset.card_nsmul_le_sum (Finset.Ico (t + 1 - f) (t + 1)) p (p (t + 1 - f))
      (fun i hi => hp.monotone (Finset.mem_Ico.1 hi).1)
    rw [hcardf, nsmul_eq_mul] at h
    exact h
  have hb2 : ∑ i ∈ Finset.Ico (t + 1 - s) (t + 1 - f), p i ≤
      ((s - f : ℕ) : ℚ) * p (t + 1 - f - 1) := by
    have h := Finset.sum_le_card_nsmul (Finset.Ico (t + 1 - s) (t + 1 - f)) p
      (p (t + 1 - f - 1))
      (fun i hi => hp.monotone (by have := (Finset.mem_Ico.1 hi).2; omega))
    rw [hcardb, nsmul_eq_mul] at h
    exact h
  have hplt : p (t + 1 - f - 1) < p (t + 1 - f) := hp (by omega)
  have hf0 : (0 : ℚ) < (f : ℚ) := by exact_mod_cast hf
  have hs0 : (0 : ℚ) < (s : ℚ) := by exact_mod_cast lt_trans hf hfs
  have hsf0 : (0 : ℚ) < ((s - f : ℕ) : ℚ) := by
    have h : 0 < s - f := by omega
    exact_mod_cast h
  unfold sma
  rw [div_lt_div_iff₀ hs0 hf0]
  have hcast : (s : ℚ) = (f : ℚ) + ((s - f : ℕ) : ℚ) := by
    rw [Nat.cast_sub hfs.le]; ring
  rw [hsplit, hcast]
  nlinarith [mul_le_mul_of_nonneg_right hb2 hf0.le,
             mul_lt_mul_of_pos_right (mul_lt_mul_of_pos_left hplt hsf0) hf0,
             mul_le_mul_of_nonneg_right hb1 hsf0.le]

/-- C8: on a strictly monotonically increasing price series, with fast_period <
slow_period, the MA-Crossover strategy issues at most one BUY (in fact none: the fast
SMA already exceeds the slow SMA at the first evaluated bar, so no upward cross ever
fires) and no SELL over the whole run. -/
theorem C8_ma_crossover_monotone (p : ℕ → ℚ) (fast slow numBars : ℕ)
    (hp : StrictMono p) (hf : 0 < fast) (hfs : fast < slow) :
    (maSignals p fast slow numBars).count TradeAction.buy ≤ 1 ∧
    (maSignals p fast slow numBars).count TradeAction.sell = 0 := by
  have hempty : maSignals p fast slow numBars = [] := by
    unfold maSignals
    apply List.filterMap_eq_nil_iff.mpr
    intro t ht
    by_cases hslow : slow ≤ t
    · rw [if_pos hslow]
      have hts : 1 ≤ t := by omega
      have h1 : sma p slow t < sma p fast t :=
        sma_fast_gt_slow p hp fast slow t hf hfs (by omega)
      have h2 : sma p slow (t - 1) < sma p fast (t - 1) :=
        sma_fast_gt_slow p hp fast slow (t - 1) hf hfs (by omega)
      have hcv : crossoverValue p fast slow t = 0 := by
        unfold crossoverValue
        rw [if_neg (by rintro ⟨hle, -⟩; exact absurd hle (not_le.mpr h2)),
            if_neg (by rintro ⟨-, hlt⟩; exact absurd hlt (not_lt.mpr h1.le))]
      rw [hcv]
      norm_num [ma_next]
    · rw [if_neg hslow]
  rw [hempty]
  simp

/-- C8 witness: the theorem applied to the strictly increasing series p(n) = n with
fast = 1, slow = 2 over 5 bars. -/
theorem C8_witness :
    StrictMono (fun n : ℕ => (n : ℚ)) ∧
    ((maSignals (fun n : ℕ => (n : ℚ)) 1 2 5).count TradeAction.buy ≤ 1 ∧
      (maSignals (fun n : ℕ => (n : ℚ)) 1 2 5).count TradeAction.sell = 0) := by
  have hmono : StrictMono (fun n : ℕ => (n : ℚ)) := fun a b h => by
    show (a : ℚ) < (b : ℚ)
    exact_mod_cast h
  exact ⟨hmono, C8_ma_crossover_monotone _ 1 2 5 hmono (by norm_num) (by norm_num)⟩
